import Mathlib

/-!
Verification of `clone_repos.py`, a GitLab batch repository cloner.

The script is a sequential orchestration of
* paginated HTTP discovery (`get_subgroups`, `get_subgroup_projects`),
* an inline case-insensitive exact-match repository filter in `main`,
* `clone_repo` (full clone: remove existing target, `git clone`, best-effort
  removal of `node_modules`, every exception caught and turned into `False`),
* the `main` orchestrator (banner, discovery, per-student directories,
  `os.chdir` into the output directory and back, success tally).

The embedding is shallow: HTTP responses, subprocess outcomes and the
filesystem are oracles supplied in environment records, and each function is
translated into a pure Lean function that additionally returns the trace of
observable events (prints, directory operations, subprocess invocations) so
that invariants about what the run does can be stated and proved.
-/

namespace CloneRepos

/-- A GitLab subgroup record (one student), attributes `id` and `name`. -/
structure Subgroup where
  id : Nat
  name : String
deriving DecidableEq, Inhabited

/-- A GitLab project record: attributes `name` and `http_url_to_repo`. -/
structure Project where
  name : String
  http_url_to_repo : String
deriving DecidableEq, Inhabited

/-- One HTTP response for a paginated list request: `status_code`, the decoded
JSON body (a list of records) and the raw `text` printed on error. -/
structure Response (α : Type) where
  status : Nat
  body : List α
  text : String
deriving DecidableEq

/-- A Python exception as observed by the `try` block of `clone_repo`: either a
`subprocess.CalledProcessError` (carrying captured stderr) or any other
exception (carrying its message). -/
inductive PyExc where
  | calledProcessError (stderr : String)
  | otherError (msg : String)
deriving DecidableEq

/-! ## Discovery: `get_subgroups` / `get_subgroup_projects`

Both functions run the same loop: starting at `page = 1`, request a page of at
most 100 records; a non-200 status prints the status code and the response
text and returns `[]`; an empty page stops the loop and returns the
accumulator; otherwise the page is appended and the loop continues.  The loop
is unbounded in the source, so the embedding takes a fuel argument and returns
`none` when the fuel runs out (a run of the source that never sees an empty
page does not terminate).  The result carries both the record list and the
lines printed. -/

/-- The shared pagination loop of `get_subgroups` and `get_subgroup_projects`
(`while True: ... page += 1`), with `api pageNumber` standing for
`requests.get(url, headers=headers, params={per_page: 100, page: pageNumber})`. -/
def fetchAll (api : Nat → Response α) (errLabel : String) :
    Nat → Nat → List α → List String → Option (List α × List String)
  | 0, _, _, _ => none
  | fuel + 1, page, acc, log =>
    let r := api page
    if r.status ≠ 200 then
      some ([], log ++ ["Error fetching " ++ errLabel ++ ": " ++ toString r.status, r.text])
    else if r.body.isEmpty then
      some (acc, log)
    else
      fetchAll api errLabel fuel (page + 1) (acc ++ r.body) log

/-- Model of `get_subgroups(group_path)`: fetch all subgroups of the group, page by
page.  The group path and token only shape the request URL and headers, which
the `api` oracle abstracts. -/
def get_subgroups (api : Nat → Response Subgroup) (fuel : Nat) :
    Option (List Subgroup × List String) :=
  fetchAll api "subgroups" fuel 1 [] []

/-- Model of `get_subgroup_projects(subgroup_id)`: fetch all projects of one subgroup,
page by page (`include_subgroups=True` only shapes the request). -/
def get_subgroup_projects (api : Nat → Response Project) (fuel : Nat) :
    Option (List Project × List String) :=
  fetchAll api "projects" fuel 1 [] []

/-- The concatenation, in order, of the bodies of `n` consecutive pages
starting at page `k`. -/
def pagesConcat (api : Nat → Response α) : Nat → Nat → List α
  | _, 0 => []
  | k, n + 1 => (api k).body ++ pagesConcat api (k + 1) n

/-! ## Filter

`main` lines 166–168:
```
folders_lower = [f.lower() for f in FOLDERS_TO_CLONE]
target_repos = [p for p in projects if p["name"].lower() in folders_lower]
```
-/

/-- The `str.lower()` method of Python, character by character.  (Stated at the level of
the character list so that it evaluates by kernel reduction; it agrees with
`String.toLower`, see `strLower_eq_toLower`.) -/
def strLower (s : String) : String := String.mk (s.data.map Char.toLower)

lemma strLower_eq_toLower (s : String) : strLower s = s.toLower := by
  rw [String.toLower, String.map_eq]
  rfl

/-- The repository filter of `main`: keep the projects whose lower-cased name
occurs in the lower-cased allow-list. -/
def filterRepos (projects : List Project) (folders : List String) : List Project :=
  let folders_lower := folders.map strLower
  projects.filter (fun p => strLower p.name ∈ folders_lower)

/-! ## Fetch: `clone_repo`

`clone_repo(repo_url, repo_name)` performs, inside a `try` block:
1. if the target path exists, `rm -rf` it (`check=False`);
2. `git clone auth_url repo_name` with `check=True` and captured output, so a
   non-zero exit raises `subprocess.CalledProcessError`;
3. if `repo_name/node_modules` exists, `rm -rf` it (`check=False`);
4. print a success line and return `True`.
`except subprocess.CalledProcessError` and `except Exception` both print an
error line and return `False`.

The contents of the target path are modelled as `Option RepoImage` (`none` when the
path does not exist); the outcome of the `git clone` subprocess and the exit
status of the `node_modules` removal are oracles in `CloneEnv`.  `rm -rf` on
the target always removes it; `rm -rf` on `node_modules` removes it only when
its exit status is 0 (e.g. permission denied leaves it in place), and with
`check=False` that exit status is ignored either way. -/

/-- Contents of a cloned working tree: whether a `node_modules` directory is
present, and an abstract identifier for the rest of the tree. -/
structure RepoImage where
  hasNodeModules : Bool
  contentId : Nat
deriving DecidableEq, Inhabited

/-- Observable events of one `clone_repo` call. -/
inductive CEv where
  | print (line : String)
  | rmTarget (path : String)
  | gitClone (url : String) (path : String)
  | rmNodeModules (path : String)
deriving DecidableEq

/-- Environment of one `clone_repo` call: its two arguments, the token, the
outcome of the `git clone` subprocess (the cloned image on success, the raised
exception otherwise) and the exit status of `rm -rf node_modules`. -/
structure CloneEnv where
  repo_url : String
  repo_name : String
  token : String
  cloneResult : Except PyExc RepoImage
  rmNodeModulesExit : Nat

/-- Computes the authenticated URL: the token is spliced into the user-info
segment by replacing the scheme part of the URL, as in the source. -/
def authUrl (env : CloneEnv) : String :=
  env.repo_url.replace "https://" ("https://oauth2:" ++ env.token ++ "@")

/-- The body of the `try` block of `clone_repo`, returning the final target-path
state, the event trace and either the returned value or the raised
exception. -/
def cloneBody (env : CloneEnv) (fs : Option RepoImage) :
    Option RepoImage × List CEv × Except PyExc Bool :=
  let (fs1, evs1) :=
    if fs.isSome then ((none : Option RepoImage), [CEv.rmTarget env.repo_name])
    else (fs, [])
  match env.cloneResult with
  | Except.error e =>
    (fs1, evs1 ++ [CEv.gitClone (authUrl env) env.repo_name], Except.error e)
  | Except.ok img =>
    let evs2 := evs1 ++ [CEv.gitClone (authUrl env) env.repo_name]
    if img.hasNodeModules then
      let img1 := if env.rmNodeModulesExit = 0 then { img with hasNodeModules := false } else img
      (some img1,
       evs2 ++ [CEv.rmNodeModules (env.repo_name ++ "/node_modules"),
                CEv.print ("  ✓ Cloned " ++ env.repo_name)],
       Except.ok true)
    else
      (some img, evs2 ++ [CEv.print ("  ✓ Cloned " ++ env.repo_name)], Except.ok true)

/-- Model of `clone_repo`: the initial `print`, the `try` body, and the two `except`
clauses.  The third component is what the caller observes: `Except.ok b` when
the function returns the boolean `b`, `Except.error e` if an exception were to
escape (none does — see the totality theorem for C10). -/
def clone_repo (env : CloneEnv) (fs : Option RepoImage) :
    Option RepoImage × List CEv × Except PyExc Bool :=
  let pre := [CEv.print ("  Cloning: " ++ env.repo_name)]
  let r := cloneBody env fs
  match r.2.2 with
  | Except.ok b => (r.1, pre ++ r.2.1, Except.ok b)
  | Except.error (PyExc.calledProcessError stderr) =>
    (r.1, pre ++ r.2.1 ++ [CEv.print ("  ✗ Error cloning " ++ env.repo_name ++ ": " ++ stderr)],
     Except.ok false)
  | Except.error (PyExc.otherError msg) =>
    (r.1, pre ++ r.2.1 ++ [CEv.print ("  ✗ Unexpected error with " ++ env.repo_name ++ ": " ++ msg)],
     Except.ok false)

/-! ## Orchestration: `main`

`main` prints a banner, calls `get_subgroups`, returns early when the result
is empty, otherwise creates the output directory `batch-28-students` if
missing, `os.chdir`s into it, processes each subgroup (create the student
directory if missing, `get_subgroup_projects`, filter, clone each surviving
project, counting successes), `os.chdir("..")` back, and prints the tally.

In the embedding `main` receives the discovery results through `MainEnv`:
`subgroups` is the value `get_subgroups` returned, and `projects sg.id` is
what the `get_subgroup_projects(sg.id)` call does — its returned list, or
`Except.error` when the call raises (e.g. a `requests` connection error,
which nothing in `main` catches).  `clone_repo` is total (C10), so its result
is the boolean oracle `cloneOutcome url path`.  The working directory is a
list of path components: `os.chdir(d)` appends `d`, `os.chdir("..")` drops
the last component. -/

/-- Observable events of one `main` run (the prints `clone_repo` itself emits
are part of the `clone_repo` model, not repeated here). -/
inductive Ev where
  | print (line : String)
  | mkdir (path : String)
  | chdir (path : String)
  | cloneAttempt (student url repoName : String) (ok : Bool)
deriving DecidableEq

/-- Environment of one `main` run. -/
structure MainEnv where
  group : String
  folders : List String
  subgroups : List Subgroup
  projects : Nat → Except String (List Project)
  cloneOutcome : String → String → Bool
  outputDirExists : Bool
  dirExists : String → Bool
  cwd0 : List String

/-- The fixed output root: `output_dir = "batch-28-students"`. -/
def output_dir : String := "batch-28-students"

/-- The separator line `"=" * 60`. -/
def eqLine : String := String.mk (List.replicate 60 '=')

/-- Body of the inner `for project in target_repos` loop: record the clone
invocation (`clone_path = os.path.join(student_name, repo_name)`) and add 1 to
`success_count` exactly when `clone_repo` returned `True`. -/
def cloneStep (env : MainEnv) (sgName : String) (acc : List Ev × Nat) (p : Project) :
    List Ev × Nat :=
  let clone_path := sgName ++ "/" ++ p.name
  let ok := env.cloneOutcome p.http_url_to_repo clone_path
  (acc.1 ++ [Ev.cloneAttempt sgName p.http_url_to_repo p.name ok],
   if ok then acc.2 + 1 else acc.2)

/-- One iteration of the `for subgroup in subgroups` loop of `main`: the events it
emits and either the number of successful clones it contributes or the
exception that escapes it. -/
def processSubgroup (env : MainEnv) (sg : Subgroup) : List Ev × Except String Nat :=
  let evs1 := [Ev.print ("\n--- Processing student: " ++ sg.name ++ " ---")]
    ++ (if env.dirExists sg.name then [] else [Ev.mkdir sg.name])
  match env.projects sg.id with
  | Except.error e => (evs1, Except.error e)
  | Except.ok projects =>
    let evs2 := evs1 ++
      (if projects.isEmpty then [Ev.print "  No repos found in this subgroup"]
       else [Ev.print ("  Found repos: " ++ toString (projects.map Project.name))])
    let target_repos := filterRepos projects env.folders
    if target_repos.isEmpty then
      (evs2 ++ [Ev.print ("  No " ++ String.intercalate "/" env.folders ++ " repos matched")],
       Except.ok 0)
    else
      let res := target_repos.foldl (cloneStep env sg.name) ([], 0)
      (evs2 ++ res.1, Except.ok res.2)

/-- The whole `for subgroup in subgroups` loop; an exception in one iteration
aborts the loop (it propagates out of `main`). -/
def processAll (env : MainEnv) : List Subgroup → List Ev × Except String Nat
  | [] => ([], Except.ok 0)
  | sg :: rest =>
    match processSubgroup env sg with
    | (evs, Except.error e) => (evs, Except.error e)
    | (evs, Except.ok c) =>
      match processAll env rest with
      | (evs2, Except.error e) => (evs ++ evs2, Except.error e)
      | (evs2, Except.ok c2) => (evs ++ evs2, Except.ok (c + c2))

/-- Result of one `main` run: the event trace, the working directory when the
run ends (normally or by an escaping exception), and `Except.ok tally` on a
normal return or `Except.error e` when an exception escapes `main`. -/
structure RunResult where
  events : List Ev
  cwdEnd : List String
  outcome : Except String Nat

/-- The four banner prints at the top of `main`. -/
def bannerEvents (env : MainEnv) : List Ev :=
  [Ev.print "GitLab Batch Repository Cloner",
   Ev.print ("Group: " ++ env.group),
   Ev.print ("Repos to clone: " ++ String.intercalate ", " env.folders),
   Ev.print "\nFetching student subgroups from GitLab..."]

/-- The student-count and `enumerate(subgroups, 1)` listing prints. -/
def studentListEvents (env : MainEnv) : List Ev :=
  [Ev.print ("\nFound " ++ toString env.subgroups.length ++ " students"),
   Ev.print "\nStudents to clone:"]
  ++ env.subgroups.enum.map (fun p => Ev.print ("  " ++ toString (p.1 + 1) ++ ". " ++ p.2.name))

/-- Creation of the output directory when missing, `os.chdir(output_dir)`, and
the "Starting cloning process" print. -/
def preLoopEvents (env : MainEnv) : List Ev :=
  (if env.outputDirExists then [] else [Ev.mkdir output_dir])
  ++ [Ev.chdir output_dir,
      Ev.print ("\nStarting cloning process into './" ++ output_dir ++ "' directory...")]

/-- The final `os.chdir("..")` step and the tally prints. -/
def summaryEvents (env : MainEnv) (cnt : Nat) : List Ev :=
  [Ev.chdir "..",
   Ev.print ("\n" ++ eqLine),
   Ev.print ("✓ Processed " ++ toString env.subgroups.length ++ " students!"),
   Ev.print ("✓ Cloned " ++ toString cnt ++ " repositories"),
   Ev.print ("Repositories are in the './" ++ output_dir ++ "' directory"),
   Ev.print eqLine]

/-- Model of `main()`.  The early return happens when `get_subgroups` returned an empty
list (`if not subgroups`), before the output directory is created or entered;
when an exception escapes the subgroup loop, `main` ends with the working
directory still inside the output directory (there is no `try/finally` around
the loop, so `os.chdir("..")` is skipped). -/
def mainRun (env : MainEnv) : RunResult :=
  if env.subgroups.isEmpty then
    { events := bannerEvents env ++ [Ev.print "No subgroups (students) found or error occurred."],
      cwdEnd := env.cwd0,
      outcome := Except.ok 0 }
  else
    match processAll env env.subgroups with
    | (evs, Except.error e) =>
      { events := bannerEvents env ++ studentListEvents env ++ preLoopEvents env ++ evs,
        cwdEnd := env.cwd0 ++ [output_dir],
        outcome := Except.error e }
    | (evs, Except.ok cnt) =>
      { events := bannerEvents env ++ studentListEvents env ++ preLoopEvents env ++ evs
          ++ summaryEvents env cnt,
        cwdEnd := (env.cwd0 ++ [output_dir]).dropLast,
        outcome := Except.ok cnt }

/-! ## Derived notions used to state the claims -/

/-- The event `cloneStep` records for project `p` of student `sgName`. -/
def attemptEv (env : MainEnv) (sgName : String) (p : Project) : Ev :=
  Ev.cloneAttempt sgName p.http_url_to_repo p.name
    (env.cloneOutcome p.http_url_to_repo (sgName ++ "/" ++ p.name))

/-- Whether the clone of project `p` of student `sgName` succeeds. -/
def attemptOk (env : MainEnv) (sgName : String) (p : Project) : Bool :=
  env.cloneOutcome p.http_url_to_repo (sgName ++ "/" ++ p.name)

/-- Recognizes clone-invocation events. -/
def isCloneAttempt : Ev → Bool
  | Ev.cloneAttempt _ _ _ _ => true
  | _ => false

/-- Recognizes successful clone-invocation events. -/
def isSuccessAttempt : Ev → Bool
  | Ev.cloneAttempt _ _ _ ok => ok
  | _ => false

/-- The clone invocations one subgroup should produce: one per project that
survives the filter, in order (none when the discovery call raises, since the
run aborts there). -/
def plannedAttempts (env : MainEnv) (sg : Subgroup) : List Ev :=
  match env.projects sg.id with
  | Except.error _ => []
  | Except.ok ps => (filterRepos ps env.folders).map (attemptEv env sg.name)

/-! ## Pagination lemmas -/

/-- Running the pagination loop from page `k` with `m` consecutive non-empty
200 pages followed by an empty 200 page returns the accumulator extended with
the concatenation of those `m` pages, and logs nothing. -/
lemma fetchAll_concat {α : Type} (api : Nat → Response α) (lbl : String) :
    ∀ (m k : Nat) (acc : List α) (log : List String),
      (∀ i, i < m → (api (k + i)).status = 200 ∧ (api (k + i)).body ≠ []) →
      (api (k + m)).status = 200 → (api (k + m)).body = [] →
      fetchAll api lbl (m + 1) k acc log = some (acc ++ pagesConcat api k m, log) := by
  intro m
  induction m with
  | zero =>
    intro k acc log _ h200 hemp
    rw [Nat.add_zero] at h200 hemp
    simp [fetchAll, pagesConcat, h200, hemp]
  | succ m ih =>
    intro k acc log hgood h200 hemp
    have h0 := hgood 0 (Nat.succ_pos m)
    rw [Nat.add_zero] at h0
    have hrec := ih (k + 1) (acc ++ (api k).body) log
      (fun i hi => by
        have h := hgood (i + 1) (by omega)
        rwa [show k + (i + 1) = k + 1 + i by omega] at h)
      (by rwa [show k + 1 + m = k + (m + 1) by omega])
      (by rwa [show k + 1 + m = k + (m + 1) by omega])
    rw [fetchAll]
    simp only [h0.1, ne_eq]
    rw [if_neg (by simp)]
    rw [if_neg (by simp [List.isEmpty_iff, h0.2])]
    rw [hrec]
    simp [pagesConcat, List.append_assoc]

/-- Running the pagination loop from page `k` with `m` consecutive non-empty
200 pages followed by a page with a non-200 status returns the empty list —
the pages accumulated so far are discarded — and logs the status code and the
response text. -/
lemma fetchAll_err {α : Type} (api : Nat → Response α) (lbl : String) :
    ∀ (m k : Nat) (acc : List α) (log : List String),
      (∀ i, i < m → (api (k + i)).status = 200 ∧ (api (k + i)).body ≠ []) →
      (api (k + m)).status ≠ 200 →
      fetchAll api lbl (m + 1) k acc log =
        some ([], log ++ ["Error fetching " ++ lbl ++ ": " ++ toString (api (k + m)).status,
                          (api (k + m)).text]) := by
  intro m
  induction m with
  | zero =>
    intro k acc log _ hbad
    rw [Nat.add_zero] at hbad
    simp [fetchAll, hbad]
  | succ m ih =>
    intro k acc log hgood hbad
    have h0 := hgood 0 (Nat.succ_pos m)
    rw [Nat.add_zero] at h0
    have hrec := ih (k + 1) (acc ++ (api k).body) log
      (fun i hi => by
        have h := hgood (i + 1) (by omega)
        rwa [show k + (i + 1) = k + 1 + i by omega] at h)
      (by rwa [show k + 1 + m = k + (m + 1) by omega])
    simp only [show k + 1 + m = k + (m + 1) by omega] at hrec
    rw [fetchAll]
    simp only [h0.1, ne_eq]
    rw [if_neg (by simp)]
    rw [if_neg (by simp [List.isEmpty_iff, h0.2])]
    exact hrec

/-! ## Claim theorems: Filter and Discovery -/

/-- C1: `Filter` keeps exactly the records whose lower-cased name equals a
lower-cased allow-list entry; matching is case-insensitive and exact, so
`"Homeworks"` matches entry `"homeworks"` while `"Homeworks2"` — which merely
contains it as a substring — does not. -/
theorem filter_matches_exactly_case_insensitive :
    (∀ (projects : List Project) (folders : List String) (p : Project),
      p ∈ filterRepos projects folders ↔
        p ∈ projects ∧ ∃ f ∈ folders, p.name.toLower = f.toLower) ∧
    (∀ url, Project.mk "Homeworks" url ∈ filterRepos [Project.mk "Homeworks" url] ["homeworks"]) ∧
    (∀ url, Project.mk "Homeworks2" url ∉ filterRepos [Project.mk "Homeworks2" url] ["homeworks"]) := by
  refine ⟨?_, ?_, ?_⟩
  · intro projects folders p
    simp only [filterRepos, List.mem_filter, decide_eq_true_eq, List.mem_map,
      strLower_eq_toLower]
    constructor
    · rintro ⟨hp, f, hf, he⟩
      exact ⟨hp, f, hf, he.symm⟩
    · rintro ⟨hp, f, hf, he⟩
      exact ⟨hp, f, hf, he.symm⟩
  · intro url
    simp only [filterRepos, List.map_cons, List.map_nil, List.mem_filter,
      List.mem_singleton, decide_eq_true_eq]
    exact ⟨trivial, by decide⟩
  · intro url
    simp only [filterRepos, List.map_cons, List.map_nil, List.mem_filter,
      List.mem_singleton, decide_eq_true_eq]
    rintro ⟨-, h⟩
    exact absurd h (by decide)

theorem filter_matches_exactly_case_insensitive_witness :
    Project.mk "HomeWorks" "u9" ∈ [Project.mk "HomeWorks" "u9", Project.mk "Notes" "u8"] ∧
    ∃ f ∈ ["homeworks"], (Project.mk "HomeWorks" "u9").name.toLower = f.toLower :=
  (filter_matches_exactly_case_insensitive.1
      [Project.mk "HomeWorks" "u9", Project.mk "Notes" "u8"] ["homeworks"]
      (Project.mk "HomeWorks" "u9")).mp (by decide)

/-- C2: when discovery sees `N` non-empty pages (each a 200 response with at
most 100 records) and the `(N+1)`-th page is empty, `get_subgroups` and
`get_subgroup_projects` both return exactly the concatenation of the `N`
pages, in order, with nothing logged. -/
theorem discovery_concatenates_pages
    (sapi : Nat → Response Subgroup) (papi : Nat → Response Project) (Ns Np : Nat)
    (hs : ∀ i, i < Ns → (sapi (1 + i)).status = 200 ∧ (sapi (1 + i)).body ≠ [] ∧
          (sapi (1 + i)).body.length ≤ 100)
    (hsN : (sapi (1 + Ns)).status = 200 ∧ (sapi (1 + Ns)).body = [])
    (hp : ∀ i, i < Np → (papi (1 + i)).status = 200 ∧ (papi (1 + i)).body ≠ [] ∧
          (papi (1 + i)).body.length ≤ 100)
    (hpN : (papi (1 + Np)).status = 200 ∧ (papi (1 + Np)).body = []) :
    get_subgroups sapi (Ns + 1) = some (pagesConcat sapi 1 Ns, []) ∧
    get_subgroup_projects papi (Np + 1) = some (pagesConcat papi 1 Np, []) := by
  constructor
  · exact fetchAll_concat sapi "subgroups" Ns 1 [] []
      (fun i hi => ⟨(hs i hi).1, (hs i hi).2.1⟩) hsN.1 hsN.2
  · exact fetchAll_concat papi "projects" Np 1 [] []
      (fun i hi => ⟨(hp i hi).1, (hp i hi).2.1⟩) hpN.1 hpN.2

/-- Discovery oracle for the C2 witness: one page with one subgroup, then an
empty page. -/
def wSubApi : Nat → Response Subgroup :=
  fun p => if p = 1 then ⟨200, [⟨7, "alice"⟩], ""⟩ else ⟨200, [], ""⟩

/-- Discovery oracle for the C2 witness: one page with one project, then an
empty page. -/
def wProjApi : Nat → Response Project :=
  fun p => if p = 1 then ⟨200, [⟨"Homeworks", "u1"⟩], ""⟩ else ⟨200, [], ""⟩

theorem discovery_concatenates_pages_witness :
    get_subgroups wSubApi 2 = some (pagesConcat wSubApi 1 1, []) ∧
    get_subgroup_projects wProjApi 2 = some (pagesConcat wProjApi 1 1, []) :=
  discovery_concatenates_pages wSubApi wProjApi 1 1
    (fun i hi => by
      have : i = 0 := Nat.lt_one_iff.mp hi
      subst this
      refine ⟨rfl, by decide, by decide⟩)
    (by constructor <;> decide)
    (fun i hi => by
      have : i = 0 := Nat.lt_one_iff.mp hi
      subst this
      refine ⟨rfl, by decide, by decide⟩)
    (by constructor <;> decide)

/-- C4: a non-200 response at any page makes discovery log the status code and
the response body and return the empty list, discarding any pages already
accumulated; the caller receives an ordinary empty result, not an exception. -/
theorem discovery_error_returns_empty_and_logs
    (sapi : Nat → Response Subgroup) (papi : Nat → Response Project) (ms mp : Nat)
    (hs : ∀ i, i < ms → (sapi (1 + i)).status = 200 ∧ (sapi (1 + i)).body ≠ [])
    (hsbad : (sapi (1 + ms)).status ≠ 200)
    (hp : ∀ i, i < mp → (papi (1 + i)).status = 200 ∧ (papi (1 + i)).body ≠ [])
    (hpbad : (papi (1 + mp)).status ≠ 200) :
    get_subgroups sapi (ms + 1) =
      some ([], ["Error fetching subgroups: " ++ toString (sapi (1 + ms)).status,
                 (sapi (1 + ms)).text]) ∧
    get_subgroup_projects papi (mp + 1) =
      some ([], ["Error fetching projects: " ++ toString (papi (1 + mp)).status,
                 (papi (1 + mp)).text]) := by
  constructor
  · have h := fetchAll_err sapi "subgroups" ms 1 [] [] hs hsbad
    simpa using h
  · have h := fetchAll_err papi "projects" mp 1 [] [] hp hpbad
    simpa using h

/-- Discovery oracle for the C4 witness: one good page, then a 401. -/
def wSubApi401 : Nat → Response Subgroup :=
  fun p => if p = 1 then ⟨200, [⟨7, "alice"⟩], ""⟩ else ⟨401, [], "unauthorized"⟩

/-- Discovery oracle for the C4 witness: an immediate 500. -/
def wProjApi500 : Nat → Response Project :=
  fun _ => ⟨500, [], "server error"⟩

theorem discovery_error_returns_empty_and_logs_witness :
    get_subgroups wSubApi401 2 = some ([], ["Error fetching subgroups: 401", "unauthorized"]) ∧
    get_subgroup_projects wProjApi500 1 =
      some ([], ["Error fetching projects: 500", "server error"]) := by
  have h := discovery_error_returns_empty_and_logs wSubApi401 wProjApi500 1 0
    (fun i hi => by
      have : i = 0 := Nat.lt_one_iff.mp hi
      subst this
      exact ⟨rfl, by decide⟩)
    (by decide)
    (fun i hi => absurd hi (Nat.not_lt_zero i))
    (by decide)
  exact ⟨by simpa using h.1, by simpa using h.2⟩

/-! ## `clone_repo` lemmas -/

/-- The target-path state `clone_repo` always leaves behind, whatever state it
started from: nothing on clone failure, the cloned image (with `node_modules`
removed exactly when the cleanup subprocess exited 0) on success. -/
def cloneEnd (env : CloneEnv) : Option RepoImage :=
  match env.cloneResult with
  | Except.error _ => none
  | Except.ok img =>
    some (if img.hasNodeModules && env.rmNodeModulesExit == 0 then
            { img with hasNodeModules := false }
          else img)

lemma clone_repo_fst (env : CloneEnv) (fs : Option RepoImage) :
    (clone_repo env fs).1 = cloneEnd env := by
  rcases hr : env.cloneResult with e | img
  · rcases e with s | m <;> rcases fs with _ | i <;>
      simp [clone_repo, cloneBody, cloneEnd, hr]
  · rcases fs with _ | i <;>
      by_cases hnm : img.hasNodeModules <;>
      by_cases hex : env.rmNodeModulesExit = 0 <;>
      simp [clone_repo, cloneBody, cloneEnd, hr, hnm, hex]

lemma clone_repo_flag (env : CloneEnv) (fs : Option RepoImage) :
    (clone_repo env fs).2.2 = Except.ok env.cloneResult.isOk := by
  rcases hr : env.cloneResult with e | img
  · rcases e with s | m <;> rcases fs with _ | i <;>
      simp [clone_repo, cloneBody, hr, Except.isOk, Except.toBool]
  · rcases fs with _ | i <;>
      by_cases hnm : img.hasNodeModules <;>
      simp [clone_repo, cloneBody, hr, hnm, Except.isOk, Except.toBool]

lemma clone_repo_gitClone_mem (env : CloneEnv) (fs : Option RepoImage) :
    CEv.gitClone (authUrl env) env.repo_name ∈ (clone_repo env fs).2.1 := by
  rcases hr : env.cloneResult with e | img
  · rcases e with s | m <;> rcases fs with _ | i <;>
      simp [clone_repo, cloneBody, hr]
  · rcases fs with _ | i <;>
      by_cases hnm : img.hasNodeModules <;>
      simp [clone_repo, cloneBody, hr, hnm]

/-! ## Claim theorems: Fetch -/

/-- C10: `clone_repo` is total at its interface: whatever the subprocess
oracles do, the caller always receives an ordinary boolean — `True` exactly
when the `git clone` subprocess succeeded — and never a propagated exception,
because both `except` clauses convert the exception to a logged `False`. -/
theorem clone_repo_total_returns_bool (env : CloneEnv) (fs : Option RepoImage) :
    (clone_repo env fs).2.2 = Except.ok env.cloneResult.isOk :=
  clone_repo_flag env fs

/-- C6: when the clone succeeds but the `rm -rf node_modules` subprocess exits
non-zero (the directory stays in place), `clone_repo` still reports success:
the cleanup is `check=False`, its exit status is ignored. -/
theorem node_modules_removal_failure_still_success
    (env : CloneEnv) (fs : Option RepoImage) (img : RepoImage)
    (hclone : env.cloneResult = Except.ok img)
    (hnm : img.hasNodeModules = true)
    (hexit : env.rmNodeModulesExit ≠ 0) :
    (clone_repo env fs).2.2 = Except.ok true ∧
    (clone_repo env fs).1 = some img ∧
    CEv.rmNodeModules (env.repo_name ++ "/node_modules") ∈ (clone_repo env fs).2.1 := by
  rcases fs with _ | i <;>
    simp [clone_repo, cloneBody, hclone, hnm, hexit]

/-- Environment for the C6 witness: successful clone of an image that has a
`node_modules` directory, removal exiting 1 (permission denied). -/
def cenvRmFail : CloneEnv :=
  { repo_url := "https://gitlab.com/g/r.git", repo_name := "alice/Homeworks",
    token := "tok", cloneResult := Except.ok ⟨true, 5⟩, rmNodeModulesExit := 1 }

theorem node_modules_removal_failure_still_success_witness :
    (clone_repo cenvRmFail none).2.2 = Except.ok true ∧
    (clone_repo cenvRmFail none).1 = some ⟨true, 5⟩ ∧
    CEv.rmNodeModules (cenvRmFail.repo_name ++ "/node_modules") ∈
      (clone_repo cenvRmFail none).2.1 :=
  node_modules_removal_failure_still_success cenvRmFail none ⟨true, 5⟩ rfl rfl (by decide)

/-- C7: when the target path already exists, `clone_repo` removes it (first
event after the "Cloning" print, before the `git clone`), and running
`clone_repo` twice against the same target leaves exactly the same end state
and result as the first run, while really invoking `git clone` again. -/
theorem full_clone_removes_existing_and_reclone_same_state :
    (∀ (env : CloneEnv) (fs : Option RepoImage), fs.isSome = true →
      ∃ rest, (clone_repo env fs).2.1 =
        CEv.print ("  Cloning: " ++ env.repo_name) :: CEv.rmTarget env.repo_name ::
          CEv.gitClone (authUrl env) env.repo_name :: rest) ∧
    (∀ (env : CloneEnv) (fs : Option RepoImage),
      (clone_repo env (clone_repo env fs).1).1 = (clone_repo env fs).1 ∧
      (clone_repo env (clone_repo env fs).1).2.2 = (clone_repo env fs).2.2 ∧
      CEv.gitClone (authUrl env) env.repo_name ∈ (clone_repo env (clone_repo env fs).1).2.1) := by
  constructor
  · intro env fs hsome
    rcases fs with _ | img0
    · simp at hsome
    rcases hr : env.cloneResult with e | img
    · rcases e with s | m
      · exact ⟨[CEv.print ("  ✗ Error cloning " ++ env.repo_name ++ ": " ++ s)],
          by simp [clone_repo, cloneBody, hr]⟩
      · exact ⟨[CEv.print ("  ✗ Unexpected error with " ++ env.repo_name ++ ": " ++ m)],
          by simp [clone_repo, cloneBody, hr]⟩
    · by_cases hnm : img.hasNodeModules
      · exact ⟨[CEv.rmNodeModules (env.repo_name ++ "/node_modules"),
                CEv.print ("  ✓ Cloned " ++ env.repo_name)],
          by simp [clone_repo, cloneBody, hr, hnm]⟩
      · exact ⟨[CEv.print ("  ✓ Cloned " ++ env.repo_name)],
          by simp [clone_repo, cloneBody, hr, hnm]⟩
  · intro env fs
    refine ⟨?_, ?_, clone_repo_gitClone_mem env _⟩
    · rw [clone_repo_fst env (clone_repo env fs).1, clone_repo_fst env fs]
    · rw [clone_repo_flag env (clone_repo env fs).1, clone_repo_flag env fs]

/-- Environment for the C7 witness. -/
def cenvReclone : CloneEnv :=
  { repo_url := "https://gitlab.com/g/r.git", repo_name := "alice/Homeworks",
    token := "tok", cloneResult := Except.ok ⟨true, 5⟩, rmNodeModulesExit := 0 }

theorem full_clone_removes_existing_and_reclone_same_state_witness :
    (∃ rest, (clone_repo cenvReclone (some ⟨false, 9⟩)).2.1 =
      CEv.print ("  Cloning: " ++ cenvReclone.repo_name) ::
        CEv.rmTarget cenvReclone.repo_name ::
        CEv.gitClone (authUrl cenvReclone) cenvReclone.repo_name :: rest) ∧
    ((clone_repo cenvReclone (clone_repo cenvReclone (some ⟨false, 9⟩)).1).1 =
      (clone_repo cenvReclone (some ⟨false, 9⟩)).1 ∧
     (clone_repo cenvReclone (clone_repo cenvReclone (some ⟨false, 9⟩)).1).2.2 =
      (clone_repo cenvReclone (some ⟨false, 9⟩)).2.2 ∧
     CEv.gitClone (authUrl cenvReclone) cenvReclone.repo_name ∈
      (clone_repo cenvReclone (clone_repo cenvReclone (some ⟨false, 9⟩)).1).2.1) :=
  ⟨full_clone_removes_existing_and_reclone_same_state.1 cenvReclone (some ⟨false, 9⟩) rfl,
   full_clone_removes_existing_and_reclone_same_state.2 cenvReclone (some ⟨false, 9⟩)⟩

/-! ## Orchestration lemmas -/

lemma cloneStep_foldl (env : MainEnv) (s : String) :
    ∀ (ts : List Project) (e0 : List Ev) (c0 : Nat),
      ts.foldl (cloneStep env s) (e0, c0) =
        (e0 ++ ts.map (attemptEv env s), c0 + ts.countP (attemptOk env s)) := by
  intro ts
  induction ts with
  | nil => intro e0 c0; simp
  | cons p ts ih =>
    intro e0 c0
    simp only [List.foldl_cons, cloneStep]
    rw [ih]
    simp only [Prod.mk.injEq, List.map_cons, List.countP_cons]
    constructor
    · simp [attemptEv, List.append_assoc]
    · cases h : env.cloneOutcome p.http_url_to_repo (s ++ "/" ++ p.name) <;>
        (simp [attemptOk, h]; try omega)

lemma filter_attempt_map (env : MainEnv) (s : String) (l : List Project) :
    (l.map (attemptEv env s)).filter isCloneAttempt = l.map (attemptEv env s) := by
  apply List.filter_eq_self.mpr
  intro a ha
  obtain ⟨p, _, rfl⟩ := List.mem_map.mp ha
  rfl

lemma countP_success_map (env : MainEnv) (s : String) (l : List Project) :
    (l.map (attemptEv env s)).countP isSuccessAttempt = l.countP (attemptOk env s) := by
  induction l with
  | nil => rfl
  | cons p t ih => simp [List.countP_cons, ih, attemptEv, attemptOk, isSuccessAttempt]

lemma countP_success_eq_filter (l : List Ev) :
    l.countP isSuccessAttempt = (l.filter isCloneAttempt).countP isSuccessAttempt := by
  induction l with
  | nil => rfl
  | cons e t ih =>
    cases e <;>
      simp [List.countP_cons, List.filter_cons, isCloneAttempt, isSuccessAttempt, ih]

lemma attempt_not_mem_of_filter_nil {l : List Ev}
    (h : l.filter isCloneAttempt = []) (s u n : String) (r : Bool) :
    Ev.cloneAttempt s u n r ∉ l := by
  intro hm
  have hmem : Ev.cloneAttempt s u n r ∈ l.filter isCloneAttempt :=
    List.mem_filter.mpr ⟨hm, rfl⟩
  rw [h] at hmem
  exact absurd hmem (List.not_mem_nil _)

lemma processSubgroup_ok (env : MainEnv) (sg : Subgroup) (ps : List Project)
    (h : env.projects sg.id = Except.ok ps) :
    (processSubgroup env sg).1.filter isCloneAttempt =
      (filterRepos ps env.folders).map (attemptEv env sg.name) ∧
    (processSubgroup env sg).2 =
      Except.ok ((filterRepos ps env.folders).countP (attemptOk env sg.name)) := by
  by_cases hT : (filterRepos ps env.folders).isEmpty
  · have hnil : filterRepos ps env.folders = [] := List.isEmpty_iff.mp hT
    by_cases hd : env.dirExists sg.name <;> by_cases hE : ps.isEmpty <;>
      simp [processSubgroup, h, hT, hnil, hd, hE, isCloneAttempt]
  · by_cases hd : env.dirExists sg.name <;> by_cases hE : ps.isEmpty <;>
      simp [processSubgroup, h, hT, hd, hE, isCloneAttempt, cloneStep_foldl,
        List.filter_append, filter_attempt_map]

lemma processSubgroup_err (env : MainEnv) (sg : Subgroup) (e : String)
    (h : env.projects sg.id = Except.error e) :
    (processSubgroup env sg).2 = Except.error e ∧
    (processSubgroup env sg).1.filter isCloneAttempt = [] := by
  by_cases hd : env.dirExists sg.name <;>
    simp [processSubgroup, h, hd, isCloneAttempt]

lemma processAll_attempt_mem (env : MainEnv) :
    ∀ (l : List Subgroup) (s u n : String) (r : Bool),
      Ev.cloneAttempt s u n r ∈ (processAll env l).1 →
      ∃ sg ∈ l, Ev.cloneAttempt s u n r ∈ (processSubgroup env sg).1 := by
  intro l
  induction l with
  | nil => intro s u n r h; simp [processAll] at h
  | cons sg rest ih =>
    intro s u n r h
    rcases h1 : processSubgroup env sg with ⟨evs, rr⟩
    rcases rr with e | c
    · simp only [processAll, h1] at h
      exact ⟨sg, List.mem_cons_self _ _, by rw [h1]; exact h⟩
    · rcases h2 : processAll env rest with ⟨evs2, r2⟩
      rcases r2 with e2 | c2 <;> simp only [processAll, h1, h2] at h <;>
        rcases List.mem_append.mp h with hL | hR
      · exact ⟨sg, List.mem_cons_self _ _, by rw [h1]; exact hL⟩
      · obtain ⟨sg2, hsg2, hm⟩ := ih s u n r (by rw [h2]; exact hR)
        exact ⟨sg2, List.mem_cons_of_mem _ hsg2, hm⟩
      · exact ⟨sg, List.mem_cons_self _ _, by rw [h1]; exact hL⟩
      · obtain ⟨sg2, hsg2, hm⟩ := ih s u n r (by rw [h2]; exact hR)
        exact ⟨sg2, List.mem_cons_of_mem _ hsg2, hm⟩

lemma processAll_ok (env : MainEnv) :
    ∀ (l : List Subgroup),
      (∀ sg ∈ l, ∃ ps, env.projects sg.id = Except.ok ps) →
      (processAll env l).1.filter isCloneAttempt = l.flatMap (plannedAttempts env) ∧
      (processAll env l).2 = Except.ok ((processAll env l).1.countP isSuccessAttempt) := by
  intro l
  induction l with
  | nil => intro _; simp [processAll]
  | cons sg rest ih =>
    intro hall
    obtain ⟨ps, hps⟩ := hall sg (List.mem_cons_self _ _)
    obtain ⟨hfil, hcnt⟩ := processSubgroup_ok env sg ps hps
    obtain ⟨ihf, ihc⟩ := ih (fun sg2 h2 => hall sg2 (List.mem_cons_of_mem _ h2))
    rcases h1 : processSubgroup env sg with ⟨evs, rr⟩
    rcases h2 : processAll env rest with ⟨evs2, r2⟩
    rw [h1] at hfil hcnt
    rw [h2] at ihf ihc
    simp only at hfil hcnt ihf ihc
    subst hcnt
    subst ihc
    constructor
    · simp only [processAll, h1, h2, List.flatMap_cons, List.filter_append, hfil, ihf,
        plannedAttempts, hps]
    · simp only [processAll, h1, h2, List.countP_append]
      rw [countP_success_eq_filter evs, hfil, countP_success_map]

lemma bannerEvents_filter (env : MainEnv) :
    (bannerEvents env).filter isCloneAttempt = [] := by
  simp [bannerEvents, isCloneAttempt]

lemma studentListEvents_filter (env : MainEnv) :
    (studentListEvents env).filter isCloneAttempt = [] := by
  refine List.filter_eq_nil_iff.mpr ?_
  intro a ha
  simp only [studentListEvents, List.mem_append, List.mem_cons, List.mem_singleton,
    List.mem_map, List.not_mem_nil, or_false] at ha
  rcases ha with (rfl | rfl) | ⟨x, _, rfl⟩ <;> simp [isCloneAttempt]

lemma preLoopEvents_filter (env : MainEnv) :
    (preLoopEvents env).filter isCloneAttempt = [] := by
  by_cases h : env.outputDirExists <;> simp [preLoopEvents, h, isCloneAttempt]

lemma summaryEvents_filter (env : MainEnv) (cnt : Nat) :
    (summaryEvents env cnt).filter isCloneAttempt = [] := by
  simp [summaryEvents, isCloneAttempt]

/-! ## Claim theorems: orchestration -/

/-- C3: every clone invocation the run performs is on a repository that was
discovered for one of the subgroups of the run and whose name passed the
case-insensitive allow-list filter; a repository that fails the filter is
never fetched. -/
theorem cloned_repos_passed_filter (env : MainEnv) (s u n : String) (r : Bool)
    (h : Ev.cloneAttempt s u n r ∈ (mainRun env).events) :
    strLower n ∈ env.folders.map strLower ∧
    ∃ sg ∈ env.subgroups, s = sg.name ∧
      ∃ ps, env.projects sg.id = Except.ok ps ∧
        ∃ p ∈ ps, p.name = n ∧ p.http_url_to_repo = u := by
  by_cases hE : env.subgroups.isEmpty
  · rw [mainRun, if_pos hE] at h
    simp only [List.mem_append, List.mem_singleton] at h
    rcases h with h | h
    · exact absurd h (attempt_not_mem_of_filter_nil (bannerEvents_filter env) s u n r)
    · exact absurd h (by simp)
  · have hmem : Ev.cloneAttempt s u n r ∈ (processAll env env.subgroups).1 := by
      rcases hpa : processAll env env.subgroups with ⟨evs, out⟩
      rw [mainRun, if_neg hE, hpa] at h
      rcases out with e | cnt <;> simp only [List.append_assoc, List.mem_append] at h
      · rcases h with h | h | h | h
        · exact absurd h (attempt_not_mem_of_filter_nil (bannerEvents_filter env) s u n r)
        · exact absurd h (attempt_not_mem_of_filter_nil (studentListEvents_filter env) s u n r)
        · exact absurd h (attempt_not_mem_of_filter_nil (preLoopEvents_filter env) s u n r)
        · simpa [hpa] using h
      · rcases h with h | h | h | h | h
        · exact absurd h (attempt_not_mem_of_filter_nil (bannerEvents_filter env) s u n r)
        · exact absurd h (attempt_not_mem_of_filter_nil (studentListEvents_filter env) s u n r)
        · exact absurd h (attempt_not_mem_of_filter_nil (preLoopEvents_filter env) s u n r)
        · simpa [hpa] using h
        · exact absurd h
            (attempt_not_mem_of_filter_nil (summaryEvents_filter env cnt) s u n r)
    obtain ⟨sg, hsg, hm⟩ := processAll_attempt_mem env env.subgroups s u n r hmem
    rcases hp : env.projects sg.id with e | ps
    · exact absurd hm
        (attempt_not_mem_of_filter_nil (processSubgroup_err env sg e hp).2 s u n r)
    · have hfil := (processSubgroup_ok env sg ps hp).1
      have hin : Ev.cloneAttempt s u n r ∈
          (filterRepos ps env.folders).map (attemptEv env sg.name) := by
        rw [← hfil]
        exact List.mem_filter.mpr ⟨hm, rfl⟩
      obtain ⟨p, hpmem, heq⟩ := List.mem_map.mp hin
      simp only [attemptEv, Ev.cloneAttempt.injEq] at heq
      obtain ⟨hs, hu, hn, _⟩ := heq
      have hpsrc : p ∈ ps ∧ strLower p.name ∈ List.map strLower env.folders := by
        have := List.mem_filter.mp hpmem
        simpa [filterRepos] using this
      exact ⟨hn ▸ hpsrc.2, sg, hsg, hs.symm, ps, hp, p, hpsrc.1, hn, hu⟩

/-- Environment for the C3 witness: one student with one allow-listed project
whose clone succeeds. -/
def envOneStudent : MainEnv :=
  { group := "cs101", folders := ["Homeworks", "Projects"],
    subgroups := [⟨1, "alice"⟩],
    projects := fun _ => Except.ok [⟨"Homeworks", "u1"⟩, ⟨"Notes", "u2"⟩],
    cloneOutcome := fun _ _ => true,
    outputDirExists := false, dirExists := fun _ => false, cwd0 := ["/home/teacher"] }

theorem cloned_repos_passed_filter_witness :
    strLower "Homeworks" ∈ envOneStudent.folders.map strLower ∧
    ∃ sg ∈ envOneStudent.subgroups, "alice" = sg.name ∧
      ∃ ps, envOneStudent.projects sg.id = Except.ok ps ∧
        ∃ p ∈ ps, p.name = "Homeworks" ∧ p.http_url_to_repo = "u1" :=
  cloned_repos_passed_filter envOneStudent "alice" "u1" "Homeworks" true (by decide)

/-- C5: a clone that exits non-zero is reported as a failure for that
repository (the captured stderr is printed), and at the run level every
repository that passed the filter still gets its clone invocation — a failed
clone neither aborts the batch nor is counted: the final tally counts exactly
the successful invocations. -/
theorem clone_failure_logged_not_counted_batch_continues :
    (∀ (cenv : CloneEnv) (fs : Option RepoImage) (stderr : String),
      cenv.cloneResult = Except.error (PyExc.calledProcessError stderr) →
      (clone_repo cenv fs).2.2 = Except.ok false ∧
      CEv.print ("  ✗ Error cloning " ++ cenv.repo_name ++ ": " ++ stderr) ∈
        (clone_repo cenv fs).2.1) ∧
    (∀ env : MainEnv,
      (∀ sg ∈ env.subgroups, ∃ ps, env.projects sg.id = Except.ok ps) →
      (mainRun env).events.filter isCloneAttempt =
        env.subgroups.flatMap (plannedAttempts env) ∧
      (mainRun env).outcome = Except.ok ((mainRun env).events.countP isSuccessAttempt)) := by
  constructor
  · intro cenv fs stderr h
    constructor
    · rw [clone_repo_flag, h]
      rfl
    · rcases fs with _ | i <;> simp [clone_repo, cloneBody, h]
  · intro env hall
    have hz : ∀ l : List Ev, l.filter isCloneAttempt = [] →
        l.countP isSuccessAttempt = 0 := by
      intro l hl
      rw [countP_success_eq_filter, hl]
      rfl
    by_cases hE : env.subgroups.isEmpty
    · have hnil : env.subgroups = [] := List.isEmpty_iff.mp hE
      rw [mainRun, if_pos hE]
      constructor
      · simp only [hnil, List.flatMap_nil, List.filter_append, bannerEvents_filter,
          List.nil_append]
        simp [isCloneAttempt]
      · simp only [List.countP_append]
        rw [hz _ (bannerEvents_filter env), hz _ (by simp [isCloneAttempt])]
    · rcases hpa : processAll env env.subgroups with ⟨evs, out⟩
      obtain ⟨hf, hc⟩ := processAll_ok env env.subgroups hall
      rw [hpa] at hf hc
      simp only at hf hc
      subst hc
      rw [mainRun, if_neg hE, hpa]
      simp only [List.filter_append, List.countP_append, bannerEvents_filter,
        studentListEvents_filter, preLoopEvents_filter, summaryEvents_filter,
        List.nil_append, List.append_nil, hf]
      refine ⟨trivial, ?_⟩
      rw [countP_success_eq_filter evs, hf]
      rw [hz _ (bannerEvents_filter env), hz _ (studentListEvents_filter env),
        hz _ (preLoopEvents_filter env), hz _ (summaryEvents_filter env _)]
      simp

/-- Environment for the C5 clone-side witness: `git clone` exits non-zero. -/
def cenvCloneFail : CloneEnv :=
  { repo_url := "https://gitlab.com/g/r.git", repo_name := "alice/Homeworks",
    token := "tok", cloneResult := Except.error (PyExc.calledProcessError "fatal: 403"),
    rmNodeModulesExit := 0 }

/-- Environment for the C5 run-side witness: two allow-listed projects, the first clone
fails and the second succeeds. -/
def envOneFailure : MainEnv :=
  { group := "cs101", folders := ["Homeworks", "Projects"],
    subgroups := [⟨1, "alice"⟩],
    projects := fun _ => Except.ok [⟨"Homeworks", "u1"⟩, ⟨"Projects", "u2"⟩],
    cloneOutcome := fun u _ => u = "u2",
    outputDirExists := false, dirExists := fun _ => false, cwd0 := ["/home/teacher"] }

theorem clone_failure_logged_not_counted_batch_continues_witness :
    ((clone_repo cenvCloneFail none).2.2 = Except.ok false ∧
     CEv.print ("  ✗ Error cloning " ++ cenvCloneFail.repo_name ++ ": " ++ "fatal: 403") ∈
       (clone_repo cenvCloneFail none).2.1) ∧
    ((mainRun envOneFailure).events.filter isCloneAttempt =
       envOneFailure.subgroups.flatMap (plannedAttempts envOneFailure) ∧
     (mainRun envOneFailure).outcome =
       Except.ok ((mainRun envOneFailure).events.countP isSuccessAttempt)) :=
  ⟨clone_failure_logged_not_counted_batch_continues.1 cenvCloneFail none "fatal: 403" rfl,
   clone_failure_logged_not_counted_batch_continues.2 envOneFailure
     (fun _ _ => ⟨[⟨"Homeworks", "u1"⟩, ⟨"Projects", "u2"⟩], rfl⟩)⟩

/-- C9: when subgroup discovery yields an empty list, the run prints the
error message and returns before creating any directory, entering any
directory or attempting any clone; the working directory is unchanged and the
run ends normally. -/
theorem empty_discovery_exits_without_creating_dirs (env : MainEnv)
    (h : env.subgroups = []) :
    Ev.print "No subgroups (students) found or error occurred." ∈ (mainRun env).events ∧
    (∀ pth, Ev.mkdir pth ∉ (mainRun env).events) ∧
    (∀ d, Ev.chdir d ∉ (mainRun env).events) ∧
    (∀ s u n r, Ev.cloneAttempt s u n r ∉ (mainRun env).events) ∧
    (mainRun env).cwdEnd = env.cwd0 ∧
    (mainRun env).outcome = Except.ok 0 := by
  have hE : env.subgroups.isEmpty = true := by rw [h]; rfl
  rw [mainRun, if_pos hE]
  refine ⟨?_, ?_, ?_, ?_, rfl, rfl⟩
  · simp
  · intro pth
    simp [bannerEvents]
  · intro d
    simp [bannerEvents]
  · intro s u n r
    simp [bannerEvents]

/-- Environment for the C9 witness: discovery returned nothing (e.g. a 401 made
`get_subgroups` return `[]`). -/
def envNoStudents : MainEnv :=
  { group := "cs101", folders := ["Homeworks", "Projects"],
    subgroups := [],
    projects := fun _ => Except.ok [],
    cloneOutcome := fun _ _ => true,
    outputDirExists := false, dirExists := fun _ => false, cwd0 := ["/home/teacher"] }

theorem empty_discovery_exits_without_creating_dirs_witness :
    Ev.print "No subgroups (students) found or error occurred." ∈
      (mainRun envNoStudents).events ∧
    (∀ pth, Ev.mkdir pth ∉ (mainRun envNoStudents).events) ∧
    (∀ d, Ev.chdir d ∉ (mainRun envNoStudents).events) ∧
    (∀ s u n r, Ev.cloneAttempt s u n r ∉ (mainRun envNoStudents).events) ∧
    (mainRun envNoStudents).cwdEnd = envNoStudents.cwd0 ∧
    (mainRun envNoStudents).outcome = Except.ok 0 :=
  empty_discovery_exits_without_creating_dirs envNoStudents rfl

/-- Environment on which `main` violates the restore-the-working-directory
property: one student, and the per-member project discovery call raises (e.g.
a `requests` connection error), after `main` has already changed into the
output directory. -/
def envNoRestore : MainEnv :=
  { group := "cs101", folders := ["Homeworks", "Projects"],
    subgroups := [⟨1, "alice"⟩],
    projects := fun _ => Except.error "requests.exceptions.ConnectionError",
    cloneOutcome := fun _ _ => true,
    outputDirExists := false, dirExists := fun _ => false, cwd0 := ["/home/teacher"] }

/-- C8 (code bug): `main` has no `try/finally` around the subgroup loop, so
when the per-member project discovery raises after `os.chdir(output_dir)`,
the exception escapes before `os.chdir("..")` runs, and the process ends with
its working directory still inside the output directory — the run does NOT
return to the original working directory on this exit path, contrary to the
specified restore-on-every-exit-path requirement. -/
theorem cwd_not_restored_on_discovery_exception :
    (mainRun envNoRestore).cwdEnd = ["/home/teacher", output_dir] ∧
    envNoRestore.cwd0 = ["/home/teacher"] ∧
    (mainRun envNoRestore).cwdEnd ≠ envNoRestore.cwd0 ∧
    (mainRun envNoRestore).outcome =
      Except.error "requests.exceptions.ConnectionError" := by
  refine ⟨rfl, rfl, by decide, rfl⟩

end CloneRepos
